import Mathlib

/-!
# Route Logger — verification of the route-optimization backend

Shallow embedding of the core of `src/backend/app.py` (Flask backend of the
Route-Logger repository): postcode validation, geocoding with its
`lru_cache` memoization, waypoint building, route reconciliation against the
external optimizer's returned permutation, and proximity grouping.

Conventions of the embedding:
* Coordinates are pairs of rationals (the Python floats are only carried
  around, never computed with, in the code paths under study).
* The network geocoder (`geolocator.geocode`) is an oracle
  `net : String → Option Coord`; a `none` result covers both an empty
  response and a raised exception, which the source swallows into `None`.
* Character predicates (`str.isalnum`, `str.isspace`, `str.strip`) are
  modelled on the ASCII range via Lean's `Char.isAlphanum`,
  `Char.isWhitespace` and the list-based `pyStrip` below; postcodes are
  ASCII in practice.
* Python string truthiness (`if start_postcode:`) is modelled as `≠ ""`.
-/

abbrev Coord := ℚ × ℚ

namespace RouteLogger

/-- Python's `str.strip()` on the ASCII range: drop leading and trailing
whitespace. -/
def pyStrip (s : String) : String :=
  ⟨((s.toList.dropWhile Char.isWhitespace).reverse.dropWhile
      Char.isWhitespace).reverse⟩

/-- A character allowed in a postcode by `validate_postcode_format`:
`c.isalnum() or c.isspace() or c == '-'` in the source. -/
def pcChar (c : Char) : Bool :=
  c.isAlphanum || c.isWhitespace || c == '-'

/-- Embedding of `validate_postcode_format` (app.py lines 190–214).
Returns `(is_valid, reason)` exactly following the source's branch order:
empty, empty-after-trim, too short (< 3), too long (> 15), invalid
character. -/
def validate_postcode_format (postcode : String) : Bool × Option String :=
  if postcode = "" then
    (false, some "Postcode is empty")
  else
    let p := pyStrip postcode
    if p = "" then
      (false, some "Postcode is empty after trimming whitespace")
    else if p.length < 3 then
      (false, some "Postcode too short")
    else if p.length > 15 then
      (false, some "Postcode too long")
    else if ¬ (p.toList.all pcChar) then
      (false, some "Postcode contains invalid characters")
    else
      (true, none)

/-- Embedding of the body of `geocode_postcode` (app.py lines 217–245),
without the `lru_cache` wrapper.  Besides the result it returns the list of
free-text queries issued to the network geocoder (each entry is one call to
`geolocator.geocode`), so that network-call counts are observable.  The
source issues the single query `f"{postcode}, {country}"` after validation
passes; on validation failure it returns `None` without any network call. -/
def geocode_postcode_raw (net : String → Option Coord) (postcode country : String) :
    Option Coord × List String :=
  if (validate_postcode_format postcode).1 = true then
    let q := postcode ++ ", " ++ country
    (net q, [q])
  else
    (none, [])

/-- Capacity of the `@lru_cache(maxsize=1000)` decorator on
`geocode_postcode`. -/
def cacheMaxsize : Nat := 1000

/-- State of the `lru_cache` memoizing `geocode_postcode`: association list
of `(postcode, country)` keys to cached results, most recently used first. -/
structure GeoCache where
  entries : List ((String × String) × Option Coord)
deriving Repr

/-- Embedding of a call to the memoized `geocode_postcode`: on a cache hit
the cached value is returned with no network traffic (the wrapped function
does not run at all); on a miss the body runs, and the result — success or
failure alike — is stored, with least-recently-used eviction at capacity
`cacheMaxsize`.  The third component counts network calls made. -/
def geocode_postcode_cached (net : String → Option Coord) (st : GeoCache)
    (postcode country : String) : Option Coord × GeoCache × Nat :=
  match st.entries.lookup (postcode, country) with
  | some v =>
      (v, ⟨((postcode, country), v) :: st.entries.eraseP
            (fun e => e.1 == (postcode, country))⟩, 0)
  | none =>
      let (r, qs) := geocode_postcode_raw net postcode country
      (r, ⟨(((postcode, country), r) :: st.entries).take cacheMaxsize⟩, qs.length)

/-- The fields of a customer record that `optimize_route` and
`group_customers_by_proximity` read (`customer.get("company", "Unknown")`,
`customer.get("postcode", "")`, `customer.get("country", "UK")`); the record
has further fields (account number, spend, visit dates …) which those code
paths never touch. -/
structure Customer where
  company  : String
  postcode : String
  country  : String
deriving DecidableEq, Repr

/-- One entry of the `geocoding_errors` list built by `optimize_route` for a
failed start/end postcode: `{"type": ..., "value": ..., "country": ...}`. -/
structure GeoFailure where
  type    : String
  value   : String
  country : String
deriving DecidableEq, Repr

/-- One entry of the `failed_customers` list built by `optimize_route`:
`{"company": ..., "postcode": ..., "country": ...}`. -/
structure FailedCustomer where
  company  : String
  postcode : String
  country  : String
deriving DecidableEq, Repr

/-- The `geocoding_stats` dictionary of `optimize_route`. -/
structure GeoStats where
  total_attempted : Nat
  successful      : Nat
  failed          : Nat
deriving DecidableEq, Repr

/-- `[customers[i] for i in optimized_order]`: the source only evaluates
this comprehension under a guard that every index is in range, so the
`filterMap` through `List.get?` drops nothing there. -/
def applyPerm (l : List α) (order : List Nat) : List α :=
  order.filterMap l.get?

/-- Embedding of the reconciliation block of `optimize_route`
(app.py lines 666–716): given the selected `customers`, the optimizer's
`optimized_order`, and which of start/end postcodes were provided
(Python truthiness of the strings), produce `optimized_customers`.
Mirrors the source's branch structure, including the `reordered_customers
= []` arm of the both-fixed branch and the fallbacks to `customers`
elsewhere; the guarded comprehensions cannot raise, so the
`except (IndexError, TypeError)` handler is unreachable. -/
def reconcile (customers : List α) (order : List Nat) (hasStart hasEnd : Bool) :
    List α :=
  if order ≠ [] ∧ customers.length > 0 then
    if hasStart = true ∧ hasEnd = true then
      if customers.length > 0 ∧ order.all (fun i => i < customers.length) then
        applyPerm customers order
      else []
    else if hasStart = true then
      if customers.length > 1 then
        let middle := customers.dropLast
        if order.all (fun i => i < middle.length) then
          applyPerm middle order ++ customers.getLast?.toList
        else customers
      else customers
    else if hasEnd = true then
      if customers.length > 1 then
        let middle := customers.tail
        if order.all (fun i => i < middle.length) then
          customers.take 1 ++ applyPerm middle order
        else customers
      else customers
    else
      if customers.length > 2 then
        let middle := customers.tail.dropLast
        if order.all (fun i => i < middle.length) then
          customers.take 1 ++ applyPerm middle order ++ customers.getLast?.toList
        else customers
      else customers
  else customers

/-- Embedding of `optimize_route_with_google_maps` (app.py lines 308–337)
with the Directions API abstracted as an oracle `api` returning the
`waypoint_order` of the chosen route (`[]` for an error, a non-OK status,
or an absent `waypoint_order`).  With no API key or fewer than two
waypoints the source returns `[], []` without calling the API. -/
def optimize_route_with_google_maps (api : List Coord → List Nat)
    (apiKeyPresent : Bool) (waypoints : List Coord) : List Nat :=
  if apiKeyPresent = false ∨ waypoints.length < 2 then [] else api waypoints

/-- Accumulator of the waypoint-building phase of `optimize_route`
(app.py lines 515–574): the `waypoints` list, the two failure lists and the
`geocoding_stats` counters. -/
structure BuildState where
  waypoints        : List Coord
  geocoding_errors : List GeoFailure
  failed_customers : List FailedCustomer
  stats            : GeoStats
deriving DecidableEq, Repr

def BuildState.init : BuildState := ⟨[], [], [], ⟨0, 0, 0⟩⟩

/-- The start-postcode step of the waypoint build (app.py lines 523–538). -/
def addStart (geo : String → String → Option Coord)
    (start_postcode start_country : String) (st : BuildState) : BuildState :=
  if start_postcode ≠ "" then
    match geo start_postcode start_country with
    | some c =>
        { st with waypoints := st.waypoints ++ [c],
                  stats := { st.stats with
                    total_attempted := st.stats.total_attempted + 1,
                    successful := st.stats.successful + 1 } }
    | none =>
        { st with geocoding_errors := st.geocoding_errors ++
                    [⟨"start_postcode", start_postcode, start_country⟩],
                  stats := { st.stats with
                    total_attempted := st.stats.total_attempted + 1,
                    failed := st.stats.failed + 1 } }
  else st

/-- One iteration of the customer loop of the waypoint build
(app.py lines 541–557). -/
def addCustomer (geo : String → String → Option Coord)
    (st : BuildState) (cu : Customer) : BuildState :=
  match geo cu.postcode cu.country with
  | some c =>
      { st with waypoints := st.waypoints ++ [c],
                stats := { st.stats with
                  total_attempted := st.stats.total_attempted + 1,
                  successful := st.stats.successful + 1 } }
  | none =>
      { st with failed_customers := st.failed_customers ++
                  [⟨cu.company, cu.postcode, cu.country⟩],
                stats := { st.stats with
                  total_attempted := st.stats.total_attempted + 1,
                  failed := st.stats.failed + 1 } }

/-- The end-postcode step of the waypoint build (app.py lines 560–574). -/
def addEnd (geo : String → String → Option Coord)
    (end_postcode end_country : String) (st : BuildState) : BuildState :=
  if end_postcode ≠ "" then
    match geo end_postcode end_country with
    | some c =>
        { st with waypoints := st.waypoints ++ [c],
                  stats := { st.stats with
                    total_attempted := st.stats.total_attempted + 1,
                    successful := st.stats.successful + 1 } }
    | none =>
        { st with geocoding_errors := st.geocoding_errors ++
                    [⟨"end_postcode", end_postcode, end_country⟩],
                  stats := { st.stats with
                    total_attempted := st.stats.total_attempted + 1,
                    failed := st.stats.failed + 1 } }
  else st

/-- The whole waypoint-building phase of `optimize_route`: start postcode
first (if provided), then each selected customer in order, then the end
postcode (if provided). -/
def buildWaypoints (geo : String → String → Option Coord)
    (customers : List Customer) (start_postcode end_postcode : String)
    (start_country end_country : String) : BuildState :=
  addEnd geo end_postcode end_country
    (customers.foldl (addCustomer geo)
      (addStart geo start_postcode start_country BuildState.init))

/-- The structured responses `optimize_route` can produce.
`inputInsufficient` is the 400 response of lines 503–509 (carrying
`current_waypoints` and `required_waypoints`); `geocodeInsufficient` the
400 response of lines 584–653 (valid-waypoint count, stats, the two
itemized failure lists, and the success-rate summary line, present exactly
when at least one geocode failed); `success` the 200 payload of
lines 718–726. -/
inductive RouteResponse where
  | inputInsufficient (current_waypoints required_waypoints : Nat)
  | geocodeInsufficient (valid_waypoints : Nat) (stats : GeoStats)
      (failed_postcodes : List GeoFailure)
      (failed_customers : List FailedCustomer) (summary : Option ℚ)
  | success (optimized_customers : List Customer) (waypoints : List Coord)
deriving DecidableEq, Repr

/-- Result of one call to the `optimize_route` handler: the response plus
the number of `geocode_postcode` calls it made. -/
structure OptOutcome where
  response : RouteResponse
  geoCalls : Nat
deriving DecidableEq, Repr

/-- Embedding of the `optimize_route` handler (app.py lines 490–726).
`customers` is `df.iloc[customer_ids].to_dict("records")` — the selected
records in selection order, one per requested id, so
`len(customer_ids) = customers.length`.  `geo` abstracts
`geocode_postcode`; `api`/`apiKeyPresent` abstract the Google Directions
call as in `optimize_route_with_google_maps`.  The start/end postcodes
arrive already `.strip()`-ed (line 494–495). -/
def optimize_route (geo : String → String → Option Coord)
    (api : List Coord → List Nat) (apiKeyPresent : Bool)
    (customers : List Customer) (start_postcode end_postcode : String)
    (start_country end_country : String) : OptOutcome :=
  let potential_waypoints := customers.length +
    (if start_postcode ≠ "" then 1 else 0) + (if end_postcode ≠ "" then 1 else 0)
  if potential_waypoints < 2 then
    ⟨.inputInsufficient potential_waypoints 2, 0⟩
  else
    let st := buildWaypoints geo customers start_postcode end_postcode
                start_country end_country
    if st.waypoints.length < 2 then
      ⟨.geocodeInsufficient st.waypoints.length st.stats st.geocoding_errors
          st.failed_customers
          (if st.stats.failed > 0 then
            some (if st.stats.total_attempted > 0 then
              (st.stats.successful : ℚ) / st.stats.total_attempted * 100 else 0)
          else none),
        st.stats.total_attempted⟩
    else
      let optimized_order := optimize_route_with_google_maps api apiKeyPresent
        st.waypoints
      ⟨.success
          (reconcile customers optimized_order (start_postcode != "")
            (end_postcode != ""))
          st.waypoints,
        st.stats.total_attempted⟩

/-- The membership test of the inner scan of `group_customers_by_proximity`
(app.py lines 287–298): candidate `j` joins the current cluster when its
postcode geocodes and its geodesic distance to the *seed* coordinate `ci`
is within `maxD`.  `geo` abstracts
`geocode_postcode(customers[j]["postcode"], customers[j]["country"])` and
`d` the external `geodesic(·,·).kilometers`. -/
def near (geo : Nat → Option Coord) (d : Coord → Coord → ℚ) (maxD : ℚ)
    (ci : Coord) (j : Nat) : Bool :=
  match geo j with
  | some cj => decide (d ci cj ≤ maxD)
  | none => false

/-- Embedding of the `while ungrouped:` loop of
`group_customers_by_proximity` (app.py lines 271–303).  The head of
`ungrouped` is `ungrouped[0]`; `ungrouped.remove(current_idx)` drops it;
the scan runs over a copy of the remaining pool, collecting `to_remove`,
and each collected index is then removed with `ungrouped.remove(idx)` —
the `foldl List.erase`. -/
def groupLoop (geo : Nat → Option Coord) (d : Coord → Coord → ℚ) (maxD : ℚ) :
    List Nat → List (List Nat)
  | [] => []
  | i :: rest =>
    match geo i with
    | none => [i] :: groupLoop geo d maxD rest
    | some ci =>
        let to_remove := rest.filter (near geo d maxD ci)
        (i :: to_remove) :: groupLoop geo d maxD (to_remove.foldl List.erase rest)
termination_by l => l.length
decreasing_by
  · simp
  · have hsub : ∀ (ys xs : List Nat), (List.foldl List.erase xs ys).Sublist xs := by
      intro ys
      induction ys with
      | nil => intro xs; exact List.Sublist.refl xs
      | cons y ys ih =>
          intro xs
          exact (ih (xs.erase y)).trans (List.erase_sublist y xs)
    have := (hsub (List.filter (near geo d maxD ci) rest) rest).length_le
    simp only [List.length_cons]
    omega

/-- Embedding of `group_customers_by_proximity` (app.py lines 265–305):
the pool starts as `list(range(len(customers)))` and the function returns
the clusters as lists of original indices. -/
def group_customers_by_proximity (geo : Nat → Option Coord)
    (d : Coord → Coord → ℚ) (maxD : ℚ) (n : Nat) : List (List Nat) :=
  groupLoop geo d maxD (List.range n)

/-- Claim-side formulation of the grouping loop, written from the spec's
§4.2 words for comparison with `groupLoop`: the added members are removed
from the pool in one sweep (a `filter`), rather than by the source's
one-by-one `list.remove` calls. -/
def groupSpecLoop (geo : Nat → Option Coord) (d : Coord → Coord → ℚ) (maxD : ℚ) :
    List Nat → List (List Nat)
  | [] => []
  | i :: rest =>
    match geo i with
    | none => [i] :: groupSpecLoop geo d maxD rest
    | some ci =>
        (i :: rest.filter (near geo d maxD ci)) ::
          groupSpecLoop geo d maxD (rest.filter (fun j => !near geo d maxD ci j))
termination_by l => l.length
decreasing_by
  · simp
  · have := List.length_filter_le (fun j => !near geo d maxD ci j) rest
    simp only [List.length_cons]
    omega

/-- Claim-side greedy single-link-to-seed clustering over `n` customers,
written from the spec's §4.2 words for comparison with
`group_customers_by_proximity`. -/
def groupSpecModel (geo : Nat → Option Coord) (d : Coord → Coord → ℚ)
    (maxD : ℚ) (n : Nat) : List (List Nat) :=
  groupSpecLoop geo d maxD (List.range n)

/-- Claim-side interior set per the spec's §4.4 table: which slice of
`customers` the optimizer's permutation ranges over in each of the four
boundary configurations. -/
def interiorSet (customers : List α) (hasStart hasEnd : Bool) : List α :=
  match hasStart, hasEnd with
  | true,  true  => customers
  | true,  false => customers.dropLast
  | false, true  => customers.tail
  | false, false => customers.tail.dropLast

/-- Claim-side boundary re-attachment per the spec's §4.4: the reordered
interior with the fixed boundary customers restored to their original
positions. -/
def reattachBoundary (customers : List α) (reordered : List α)
    (hasStart hasEnd : Bool) : List α :=
  match hasStart, hasEnd with
  | true,  true  => reordered
  | true,  false => reordered ++ customers.getLast?.toList
  | false, true  => customers.take 1 ++ reordered
  | false, false => customers.take 1 ++ reordered ++ customers.getLast?.toList

/-- Claim-side UK postcode normalization per the spec's §4.1: upper-case,
strip all whitespace, reinsert a single space before the final three
characters. -/
def ukNormalizeSpec (p : String) : String :=
  let s := (p.toList.map Char.toUpper).filter (fun c => !c.isWhitespace)
  ⟨s.take (s.length - 3)⟩ ++ " " ++ ⟨s.drop (s.length - 3)⟩

/-! Concrete oracles and inputs used to instantiate the theorems below. -/

/-- A network geocoder that never finds anything. -/
def netNone : String → Option Coord := fun _ => none

/-- A per-index geocoder where every customer fails to geocode. -/
def geoNone : Nat → Option Coord := fun _ => none

/-- A per-postcode geocoder where every lookup fails. -/
def geoNoneStr : String → String → Option Coord := fun _ _ => none

/-- A concrete computable stand-in for the geodesic distance oracle. -/
def distDemo : Coord → Coord → ℚ := fun a b => |a.1 - b.1| + |a.2 - b.2|

/-- A per-postcode geocoder: postcode `"BAD"` fails, the others resolve to
distinct coordinates. -/
def geoDemoRoute : String → String → Option Coord := fun pc _ =>
  if pc = "BAD" then none
  else if pc = "S" then some (0, 0)
  else if pc = "PA" then some (1, 0)
  else if pc = "PC" then some (2, 0)
  else some (3, 0)

/-- A route-optimizer oracle that always returns the interior permutation
`[1, 0]`. -/
def apiSwap : List Coord → List Nat := fun _ => [1, 0]

/-- Three selected customers; the middle one has the ungeocodable postcode
`"BAD"`. -/
def custsC3 : List Customer :=
  [⟨"A", "PA", "UK"⟩, ⟨"B", "BAD", "UK"⟩, ⟨"C", "PC", "UK"⟩]

/-- A geocode cache holding one previously successful lookup. -/
def demoCache : GeoCache :=
  ⟨[(("SW1A 1AA", "UK"), some (51, -1/10))]⟩

/-! ## Theorems -/

/-- C6: a postcode that, after trimming, is empty, shorter than 3
characters, longer than 15 characters, or contains a character other than
alphanumerics, whitespace, and hyphens is rejected by the format validator,
and `geocode_postcode` returns no result without issuing any network
query. -/
theorem claim_C6_invalid_postcode_rejected (net : String → Option Coord)
    (postcode country : String)
    (h : pyStrip postcode = "" ∨ (pyStrip postcode).length < 3 ∨
      15 < (pyStrip postcode).length ∨
      ((pyStrip postcode).toList.all pcChar) = false) :
    geocode_postcode_raw net postcode country = (none, []) := by
  have hv : (validate_postcode_format postcode).1 = false := by
    unfold validate_postcode_format
    by_cases h0 : postcode = ""
    · simp [h0]
    · simp only [h0, if_false]
      split_ifs with h1 h2 h3 h4
      all_goals try rfl
      all_goals
        rcases h with h | h | h | h
        · exact absurd h h1
        · omega
        · omega
        · simp_all
          rcases h with ⟨x, hx, hfx⟩
          exact absurd (h4 x hx) (by simp [hfx])
  unfold geocode_postcode_raw
  rw [hv]
  simp

/-- C6 witness: the postcode `"***"` (three non-alphanumeric characters)
is rejected with zero network calls. -/
theorem claim_C6_witness :
    ((pyStrip "***").toList.all pcChar) = false ∧
    geocode_postcode_raw netNone "***" "UK" = (none, []) :=
  ⟨by decide, claim_C6_invalid_postcode_rejected netNone "***" "UK"
    (Or.inr (Or.inr (Or.inr (by decide))))⟩

/-- C5: a `(postcode, country)` pair already present in the
`lru_cache`-backed cache is answered from the cache — the cached value is
returned unchanged and zero network calls are made — and the cache holds a
fixed capacity of 1000 ≥ 1000 entries. -/
theorem claim_C5_cache_hit (net : String → Option Coord) (st : GeoCache)
    (postcode country : String) (v : Option Coord)
    (h : st.entries.lookup (postcode, country) = some v) :
    (geocode_postcode_cached net st postcode country).1 = v ∧
    (geocode_postcode_cached net st postcode country).2.2 = 0 ∧
    1000 ≤ cacheMaxsize := by
  unfold geocode_postcode_cached
  rw [h]
  exact ⟨rfl, rfl, le_rfl⟩

/-- C5 witness: a cache holding a previously successful lookup for
`("SW1A 1AA", "UK")` answers a repeated call with the identical coordinate
and zero network calls. -/
theorem claim_C5_witness :
    (geocode_postcode_cached netNone demoCache "SW1A 1AA" "UK").1 =
      some (51, -1/10) ∧
    (geocode_postcode_cached netNone demoCache "SW1A 1AA" "UK").2.2 = 0 ∧
    1000 ≤ cacheMaxsize :=
  claim_C5_cache_hit netNone demoCache "SW1A 1AA" "UK" (some (51, -1/10)) rfl

/-- C4 counterexample: for the UK-synonym country `"uk"` and postcode
`"sw1a1aa"`, the geocoder issues exactly one query — the raw free-text
`"sw1a1aa, uk"` — although the spec's normalization of this postcode is
`"SW1A 1AA"`; the sole query contains no character `'A'` at all, so no
normalized form and no UK-specialized lookup appears anywhere in the
network interaction. -/
theorem claim_C4_counterexample :
    (geocode_postcode_raw netNone "sw1a1aa" "uk").2 = ["sw1a1aa, uk"] ∧
    ukNormalizeSpec "sw1a1aa" = "SW1A 1AA" ∧
    ("sw1a1aa, uk".toList.all (fun ch => ch != 'A')) = true := by
  decide

/-- C4 (amended): for every postcode passing format validation and every
country, `geocode_postcode` performs exactly one general-purpose free-text
query of the form `"<postcode>, <country>"`, with the postcode exactly as
given — no UK-specific normalization and no UK-specialized lookup. -/
theorem claim_C4_free_text_only (net : String → Option Coord)
    (postcode country : String)
    (h : (validate_postcode_format postcode).1 = true) :
    geocode_postcode_raw net postcode country =
      (net (postcode ++ ", " ++ country), [postcode ++ ", " ++ country]) := by
  unfold geocode_postcode_raw
  rw [h]
  simp

/-- C4 witness: the valid postcode `"SW1A 1AA"` with country `"UK"` leads
to the single query `"SW1A 1AA, UK"`. -/
theorem claim_C4_witness :
    (validate_postcode_format "SW1A 1AA").1 = true ∧
    geocode_postcode_raw netNone "SW1A 1AA" "UK" =
      (netNone ("SW1A 1AA" ++ ", " ++ "UK"), ["SW1A 1AA" ++ ", " ++ "UK"]) :=
  ⟨by decide, claim_C4_free_text_only netNone "SW1A 1AA" "UK" (by decide)⟩

/-- C1 (code evaluation): with both start and end postcodes fixed, an
out-of-range permutation index makes the reconciliation return the EMPTY
list instead of the original selection, while the same out-of-range input
falls back to the original selection in the other three boundary
configurations. -/
theorem claim_C1_empty_fallback_eval :
    reconcile ([99] : List Nat) [5] true true = [] ∧
    reconcile ([99] : List Nat) [5] true false = [99] ∧
    reconcile ([99] : List Nat) [5] false true = [99] ∧
    reconcile ([99] : List Nat) [5] false false = [99] ∧
    reconcile ([99] : List Nat) [] true true = [99] := by
  decide

/-- C2: for a non-empty selection and a non-empty, in-range permutation
over the configuration's interior set, reconciliation applies the
permutation to exactly the interior slice dictated by the boundary
configuration and reattaches the fixed boundary customers in their original
positions. -/
theorem claim_C2_reconcile_interior {α : Type} (customers : List α)
    (order : List Nat) (hasStart hasEnd : Bool)
    (hc : customers ≠ []) (ho : order ≠ [])
    (hr : ∀ i ∈ order, i < (interiorSet customers hasStart hasEnd).length) :
    reconcile customers order hasStart hasEnd =
      reattachBoundary customers
        (applyPerm (interiorSet customers hasStart hasEnd) order)
        hasStart hasEnd := by
  have hlen : customers.length > 0 := List.length_pos.mpr hc
  rcases List.exists_mem_of_ne_nil order ho with ⟨j, hj⟩
  have hall : ∀ (m : List α), (∀ i ∈ order, i < m.length) →
      (order.all fun i => decide (i < m.length)) = true := fun m hm =>
    List.all_eq_true.mpr (fun i hi => decide_eq_true (hm i hi))
  cases hasStart <;> cases hasEnd
  · -- neither fixed: interior is customers[1:-1]
    have hj' := hr j hj
    simp only [interiorSet] at hj' hr ⊢
    have h3 : customers.length > 2 := by
      have h1 := List.length_dropLast customers.tail
      have h2 := List.length_tail customers
      omega
    simp [reconcile, reattachBoundary, ho, hlen, h3, hall _ hr]
    intro x hx hcon
    exfalso
    have hx' := hr x hx
    have h1 := List.length_dropLast customers.tail
    have h2 := List.length_tail customers
    omega
  · -- end fixed only: interior is customers[1:]
    have hj' := hr j hj
    simp only [interiorSet] at hj' hr ⊢
    have h2 : customers.length > 1 := by
      have := List.length_tail customers
      omega
    simp [reconcile, reattachBoundary, ho, hlen, h2, hall _ hr]
    intro x hx hcon
    exfalso
    have hx' := hr x hx
    have h1 := List.length_tail customers
    omega
  · -- start fixed only: interior is customers[:-1]
    have hj' := hr j hj
    simp only [interiorSet] at hj' hr ⊢
    have h2 : customers.length > 1 := by
      have := List.length_dropLast customers
      omega
    simp [reconcile, reattachBoundary, ho, hlen, h2, hall _ hr]
    intro x hx hcon
    exfalso
    have hx' := hr x hx
    have h1 := List.length_dropLast customers
    omega
  · -- both fixed: interior is all of customers
    simp only [interiorSet] at hr ⊢
    simp [reconcile, reattachBoundary, ho, hlen, hall _ hr]

/-- C2 witness: the spec's round-trip example — 4 customers, neither
boundary fixed, permutation `[1, 0]` over the two interior customers —
reconciles to `[customers[0], customers[2], customers[1], customers[3]]`. -/
theorem claim_C2_witness :
    reconcile ([10, 20, 30, 40] : List Nat) [1, 0] false false =
      [10, 30, 20, 40] :=
  (claim_C2_reconcile_interior [10, 20, 30, 40] [1, 0] false false
    (by decide) (by decide) (by decide)).trans (by decide)

/-- C3 (code evaluation): with both boundary postcodes given and the middle
customer `"B"` failing to geocode, four waypoints (two interior) are
submitted, yet the returned interior permutation `[1, 0]` is applied to the
full 3-element selection — which still contains the failed customer `"B"` —
so the optimized list is `[B, A]`: the reconciler indexes into a customer
list whose length counts the failed geocode. -/
theorem claim_C3_eval :
    (optimize_route geoDemoRoute apiSwap true custsC3 "S" "E" "UK" "UK").response
      = .success [⟨"B", "BAD", "UK"⟩, ⟨"A", "PA", "UK"⟩]
          [(0, 0), (1, 0), (2, 0), (3, 0)] ∧
    geoDemoRoute "BAD" "UK" = none ∧
    (buildWaypoints geoDemoRoute custsC3 "S" "E" "UK" "UK").waypoints.length = 4 ∧
    custsC3.length = 3 := by
  decide

/-- The customer loop of the waypoint build, in closed form: it appends one
coordinate per geocodable customer in selection order, records one
failed-customer entry per ungeocodable customer, never touches the
start/end error list, and advances the counters accordingly. -/
theorem foldl_addCustomer_eq (geo : String → String → Option Coord)
    (customers : List Customer) (st : BuildState) :
    customers.foldl (addCustomer geo) st =
      { waypoints := st.waypoints ++
          customers.filterMap (fun cu => geo cu.postcode cu.country),
        geocoding_errors := st.geocoding_errors,
        failed_customers := st.failed_customers ++
          (customers.filter fun cu => (geo cu.postcode cu.country).isNone).map
            (fun cu => ⟨cu.company, cu.postcode, cu.country⟩),
        stats := ⟨st.stats.total_attempted + customers.length,
          st.stats.successful +
            (customers.filterMap fun cu => geo cu.postcode cu.country).length,
          st.stats.failed +
            (customers.filter fun cu =>
              (geo cu.postcode cu.country).isNone).length⟩ } := by
  induction customers generalizing st with
  | nil => simp
  | cons cu rest ih =>
      rw [List.foldl_cons, ih]
      cases hg : geo cu.postcode cu.country with
      | some c =>
          simp [addCustomer, hg, List.filter_cons, List.append_assoc]
          omega
      | none =>
          simp [addCustomer, hg, List.filter_cons, List.append_assoc]
          omega

/-- The waypoint-building phase in closed form: start coordinate first (if
present and geocodable), then the geocodable customers in selection order,
then the end coordinate; failures land in the two failure lists; the
counters tally every attempt. -/
theorem buildWaypoints_eq (geo : String → String → Option Coord)
    (customers : List Customer) (spc epc sc ec : String) :
    buildWaypoints geo customers spc epc sc ec =
      { waypoints := (if spc ≠ "" then (geo spc sc).toList else []) ++
          customers.filterMap (fun cu => geo cu.postcode cu.country) ++
          (if epc ≠ "" then (geo epc ec).toList else []),
        geocoding_errors :=
          (if spc ≠ "" ∧ geo spc sc = none then [⟨"start_postcode", spc, sc⟩]
            else []) ++
          (if epc ≠ "" ∧ geo epc ec = none then [⟨"end_postcode", epc, ec⟩]
            else []),
        failed_customers :=
          (customers.filter fun cu => (geo cu.postcode cu.country).isNone).map
            (fun cu => ⟨cu.company, cu.postcode, cu.country⟩),
        stats := ⟨(if spc ≠ "" then 1 else 0) + customers.length +
            (if epc ≠ "" then 1 else 0),
          (if spc ≠ "" then (geo spc sc).toList else []).length +
            (customers.filterMap fun cu => geo cu.postcode cu.country).length +
            (if epc ≠ "" then (geo epc ec).toList else []).length,
          (if spc ≠ "" ∧ geo spc sc = none then 1 else 0) +
            (customers.filter fun cu =>
              (geo cu.postcode cu.country).isNone).length +
            (if epc ≠ "" ∧ geo epc ec = none then 1 else 0)⟩ } := by
  unfold buildWaypoints
  rw [foldl_addCustomer_eq]
  by_cases hs : spc = "" <;> by_cases he : epc = ""
  · simp [addStart, addEnd, BuildState.init, hs, he]
  · cases hge : geo epc ec <;>
      simp [addStart, addEnd, BuildState.init, hs, he, hge,
        List.append_assoc]
  · cases hgs : geo spc sc <;>
      simp [addStart, addEnd, BuildState.init, hs, he, hgs,
        List.append_assoc]
  · cases hgs : geo spc sc <;> cases hge : geo epc ec <;>
      simp [addStart, addEnd, BuildState.init, hs, he, hgs, hge,
        List.append_assoc]

/-- Each element of a list either survives a `filterMap` or is counted by
the complementary `isNone` filter. -/
theorem length_filterMap_add_none {α β : Type} (f : α → Option β) (l : List α) :
    (l.filterMap f).length + (l.filter fun a => (f a).isNone).length =
      l.length := by
  induction l with
  | nil => rfl
  | cons a l ih => cases h : f a <;> simp [List.filter_cons, h] <;> omega

/-- Bookkeeping identities of the waypoint build: attempts split into
successes and failures, the success counter equals the waypoint count, and
the attempt counter equals the number of requested geocodes. -/
theorem buildWaypoints_stats_split (geo : String → String → Option Coord)
    (customers : List Customer) (spc epc sc ec : String) :
    (buildWaypoints geo customers spc epc sc ec).stats.total_attempted =
      (buildWaypoints geo customers spc epc sc ec).stats.successful +
        (buildWaypoints geo customers spc epc sc ec).stats.failed ∧
    (buildWaypoints geo customers spc epc sc ec).stats.successful =
      (buildWaypoints geo customers spc epc sc ec).waypoints.length ∧
    (buildWaypoints geo customers spc epc sc ec).stats.total_attempted =
      customers.length + (if spc ≠ "" then 1 else 0) +
        (if epc ≠ "" then 1 else 0) := by
  have hcust :=
    length_filterMap_add_none (fun cu => geo cu.postcode cu.country) customers
  have hstart : (if spc ≠ "" then (geo spc sc).toList else []).length +
      (if spc ≠ "" ∧ geo spc sc = none then 1 else 0) =
      (if spc ≠ "" then 1 else 0) := by
    by_cases hs : spc = "" <;> cases hgs : geo spc sc <;> simp [hs, hgs]
  have hend : (if epc ≠ "" then (geo epc ec).toList else []).length +
      (if epc ≠ "" ∧ geo epc ec = none then 1 else 0) =
      (if epc ≠ "" then 1 else 0) := by
    by_cases he : epc = "" <;> cases hge : geo epc ec <;> simp [he, hge]
  rw [buildWaypoints_eq]
  dsimp only
  by_cases hs : spc = ""
  · by_cases he : epc = ""
    · simp [hs, he]
      omega
    · cases hge : geo epc ec <;> simp [hs, he, hge] <;> omega
  · by_cases he : epc = ""
    · cases hgs : geo spc sc <;> simp [hs, he, hgs] <;> omega
    · cases hgs : geo spc sc <;> cases hge : geo epc ec <;>
        simp [hs, he, hgs, hge] <;> omega

/-- C8: the waypoint list is the geocoded start coordinate (if a start
postcode is present), then each geocodable selected customer's coordinate
in selection order, then the geocoded end coordinate (if present); each
geocoding failure is recorded — tagged with the failing entity's postcode,
country and (for customers) company — and the failed entity is simply
absent from the waypoint list, never replaced by a placeholder. -/
theorem claim_C8_waypoint_build (geo : String → String → Option Coord)
    (customers : List Customer) (spc epc sc ec : String) :
    (buildWaypoints geo customers spc epc sc ec).waypoints =
      (if spc ≠ "" then (geo spc sc).toList else []) ++
      customers.filterMap (fun cu => geo cu.postcode cu.country) ++
      (if epc ≠ "" then (geo epc ec).toList else []) ∧
    (buildWaypoints geo customers spc epc sc ec).failed_customers =
      (customers.filter fun cu => (geo cu.postcode cu.country).isNone).map
        (fun cu => ⟨cu.company, cu.postcode, cu.country⟩) ∧
    (buildWaypoints geo customers spc epc sc ec).geocoding_errors =
      (if spc ≠ "" ∧ geo spc sc = none then [⟨"start_postcode", spc, sc⟩]
        else []) ++
      (if epc ≠ "" ∧ geo epc ec = none then [⟨"end_postcode", epc, ec⟩]
        else []) := by
  rw [buildWaypoints_eq]
  exact ⟨rfl, rfl, rfl⟩

/-- C7: route optimization fails in two distinct stages — if fewer than two
waypoints are even requested (selected customers plus present start plus
present end), a structured `inputInsufficient` error is returned with zero
geocoding calls; if the request passes that check but geocoding leaves
fewer than two waypoints, a structured error is returned that itemizes
every failed start/end postcode (value and country) and every failed
customer (company, postcode, country) and carries the success/attempt
ratio. -/
theorem claim_C7_two_failure_stages (geo : String → String → Option Coord)
    (api : List Coord → List Nat) (apiKeyPresent : Bool)
    (customers : List Customer) (spc epc sc ec : String) :
    (customers.length + (if spc ≠ "" then 1 else 0) +
        (if epc ≠ "" then 1 else 0) < 2 →
      optimize_route geo api apiKeyPresent customers spc epc sc ec =
        ⟨.inputInsufficient (customers.length + (if spc ≠ "" then 1 else 0) +
          (if epc ≠ "" then 1 else 0)) 2, 0⟩) ∧
    (2 ≤ customers.length + (if spc ≠ "" then 1 else 0) +
        (if epc ≠ "" then 1 else 0) →
      (buildWaypoints geo customers spc epc sc ec).waypoints.length < 2 →
      (optimize_route geo api apiKeyPresent customers spc epc sc ec).response =
        .geocodeInsufficient
          (buildWaypoints geo customers spc epc sc ec).waypoints.length
          (buildWaypoints geo customers spc epc sc ec).stats
          (buildWaypoints geo customers spc epc sc ec).geocoding_errors
          (buildWaypoints geo customers spc epc sc ec).failed_customers
          (some
            (((buildWaypoints geo customers spc epc sc ec).stats.successful : ℚ) /
              (buildWaypoints geo customers spc epc sc ec).stats.total_attempted
              * 100)) ∧
      (buildWaypoints geo customers spc epc sc ec).geocoding_errors =
        (if spc ≠ "" ∧ geo spc sc = none then [⟨"start_postcode", spc, sc⟩]
          else []) ++
        (if epc ≠ "" ∧ geo epc ec = none then [⟨"end_postcode", epc, ec⟩]
          else []) ∧
      (buildWaypoints geo customers spc epc sc ec).failed_customers =
        (customers.filter fun cu => (geo cu.postcode cu.country).isNone).map
          (fun cu => ⟨cu.company, cu.postcode, cu.country⟩) ∧
      0 < (buildWaypoints geo customers spc epc sc ec).stats.failed ∧
      (buildWaypoints geo customers spc epc sc ec).stats.total_attempted =
        customers.length + (if spc ≠ "" then 1 else 0) +
          (if epc ≠ "" then 1 else 0) ∧
      (buildWaypoints geo customers spc epc sc ec).stats.successful =
        (buildWaypoints geo customers spc epc sc ec).waypoints.length) := by
  constructor
  · intro hpot
    simp only [optimize_route]
    rw [if_pos hpot]
  · intro hpot hwp
    rcases buildWaypoints_stats_split geo customers spc epc sc ec with
      ⟨hsplit, hsucc, hatt⟩
    have hfail : 0 < (buildWaypoints geo customers spc epc sc ec).stats.failed := by
      omega
    have hattpos : 0 < (buildWaypoints geo customers spc epc sc ec).stats.total_attempted := by
      omega
    refine ⟨?_, ?_, ?_, hfail, hatt, hsucc⟩
    · simp only [optimize_route]
      rw [if_neg (by omega), if_pos hwp, if_pos hfail, if_pos hattpos]
    · rw [buildWaypoints_eq]
    · rw [buildWaypoints_eq]

/-- C7 witness: an empty request fails fast with zero geocode calls; a
3-customer request whose geocodes all fail passes the precheck and then
returns the itemized post-geocoding error with all three customers listed
and a 0% success ratio. -/
theorem claim_C7_witness :
    optimize_route geoNoneStr apiSwap false ([] : List Customer) "" "" "UK" "UK" =
      ⟨.inputInsufficient 0 2, 0⟩ ∧
    (optimize_route geoNoneStr apiSwap false custsC3 "" "" "UK" "UK").response =
      .geocodeInsufficient 0 ⟨3, 0, 3⟩ []
        [⟨"A", "PA", "UK"⟩, ⟨"B", "BAD", "UK"⟩, ⟨"C", "PC", "UK"⟩]
        (some 0) := by
  constructor
  · exact (claim_C7_two_failure_stages geoNoneStr apiSwap false [] "" "" "UK"
      "UK").1 (by decide)
  · have h := (claim_C7_two_failure_stages geoNoneStr apiSwap false custsC3 ""
      "" "UK" "UK").2 (by decide) (by decide)
    have hb : buildWaypoints geoNoneStr custsC3 "" "" "UK" "UK" =
        ⟨[], [], [⟨"A", "PA", "UK"⟩, ⟨"B", "BAD", "UK"⟩, ⟨"C", "PC", "UK"⟩],
          ⟨3, 0, 3⟩⟩ := rfl
    rw [h.1, hb]
    norm_num

/-- Erasing, one by one, a batch of values none of which equals the head
leaves the head in place. -/
theorem foldl_erase_cons_not_mem {x : Nat} :
    ∀ (ys xs : List Nat), x ∉ ys →
      ys.foldl List.erase (x :: xs) = x :: ys.foldl List.erase xs := by
  intro ys
  induction ys with
  | nil => intro xs _; rfl
  | cons y ys ih =>
      intro xs hx
      have hyx : x ≠ y := fun h => hx (h ▸ List.mem_cons_self y ys)
      simp only [List.foldl_cons]
      rw [List.erase_cons_tail (by simpa using hyx)]
      exact ih (xs.erase y) (fun h => hx (List.mem_cons_of_mem y h))

/-- On a duplicate-free list, removing the matches of `p` one by one (the
source's repeated `list.remove`) is the same as keeping the non-matches
(one `filter`). -/
theorem foldl_erase_filter (p : Nat → Bool) :
    ∀ (l : List Nat), l.Nodup →
      (l.filter p).foldl List.erase l = l.filter (fun x => !p x) := by
  intro l
  induction l with
  | nil => intro _; rfl
  | cons x xs ih =>
      intro hnd
      rcases List.nodup_cons.mp hnd with ⟨hx, hxs⟩
      by_cases hp : p x = true
      · rw [List.filter_cons_of_pos hp]
        simp only [List.foldl_cons, List.erase_cons_head]
        rw [ih hxs, List.filter_cons_of_neg (by simp [hp])]
      · rw [List.filter_cons_of_neg (by simpa using hp)]
        rw [foldl_erase_cons_not_mem _ _
          (fun hmem => hx (List.mem_of_mem_filter hmem))]
        rw [ih hxs, List.filter_cons_of_pos (by simpa using hp)]

/-- On a duplicate-free pool the source loop and the spec-side loop agree:
the one-by-one removals amount to the spec's single sweep. -/
theorem groupLoop_eq_spec (geo : Nat → Option Coord) (d : Coord → Coord → ℚ)
    (maxD : ℚ) :
    ∀ (l : List Nat), l.Nodup →
      groupLoop geo d maxD l = groupSpecLoop geo d maxD l := by
  have main : ∀ (n : Nat) (l : List Nat), l.length ≤ n → l.Nodup →
      groupLoop geo d maxD l = groupSpecLoop geo d maxD l := by
    intro n
    induction n with
    | zero =>
        intro l hl _
        have : l = [] := List.eq_nil_of_length_eq_zero (Nat.le_zero.mp hl)
        subst this
        simp [groupLoop, groupSpecLoop]
    | succ n ih =>
        intro l hl hnd
        match l with
        | [] => simp [groupLoop, groupSpecLoop]
        | i :: rest =>
            rcases List.nodup_cons.mp hnd with ⟨_, hrest⟩
            have hlen : rest.length ≤ n := by
              simp only [List.length_cons] at hl
              omega
            cases hg : geo i with
            | none =>
                simp only [groupLoop, groupSpecLoop, hg]
                rw [ih rest hlen hrest]
            | some ci =>
                simp only [groupLoop, groupSpecLoop, hg]
                rw [foldl_erase_filter _ rest hrest]
                rw [ih (rest.filter fun j => !near geo d maxD ci j)
                  (le_trans (List.length_filter_le _ rest) hlen)
                  (hrest.filter _)]
  exact fun l => main l.length l le_rfl

/-- Every cluster emitted by the spec-side loop from a strictly sorted pool
is itself strictly sorted: the seed comes first and members follow in
ascending original-index order. -/
theorem groupSpecLoop_sorted (geo : Nat → Option Coord) (d : Coord → Coord → ℚ)
    (maxD : ℚ) :
    ∀ (l : List Nat), l.Sorted (· < ·) →
      ∀ g ∈ groupSpecLoop geo d maxD l, g.Sorted (· < ·) := by
  have main : ∀ (n : Nat) (l : List Nat), l.length ≤ n → l.Sorted (· < ·) →
      ∀ g ∈ groupSpecLoop geo d maxD l, g.Sorted (· < ·) := by
    intro n
    induction n with
    | zero =>
        intro l hl _
        have : l = [] := List.eq_nil_of_length_eq_zero (Nat.le_zero.mp hl)
        subst this
        simp [groupSpecLoop]
    | succ n ih =>
        intro l hl hsort
        match l with
        | [] => simp [groupSpecLoop]
        | i :: rest =>
            rcases List.sorted_cons.mp hsort with ⟨hlt, hrest⟩
            have hlen : rest.length ≤ n := by
              simp only [List.length_cons] at hl
              omega
            intro g hg
            cases hgi : geo i with
            | none =>
                simp only [groupSpecLoop, hgi, List.mem_cons] at hg
                rcases hg with hg | hg
                · subst hg
                  simp
                · exact ih rest hlen hrest g hg
            | some ci =>
                simp only [groupSpecLoop, hgi, List.mem_cons] at hg
                rcases hg with hg | hg
                · subst hg
                  refine List.sorted_cons.mpr ⟨?_, ?_⟩
                  · intro b hb
                    exact hlt b (List.mem_of_mem_filter hb)
                  · exact List.Pairwise.sublist (List.filter_sublist rest) hrest
                · exact ih (rest.filter fun j => !near geo d maxD ci j)
                    (le_trans (List.length_filter_le _ rest) hlen)
                    (List.Pairwise.sublist (List.filter_sublist rest) hrest) g hg
  exact fun l => main l.length l le_rfl

/-- The spec-side loop partitions the pool: the concatenation of its
clusters is a permutation of the pool it started from. -/
theorem groupSpecLoop_join_perm (geo : Nat → Option Coord)
    (d : Coord → Coord → ℚ) (maxD : ℚ) :
    ∀ (l : List Nat), (groupSpecLoop geo d maxD l).flatten.Perm l := by
  have main : ∀ (n : Nat) (l : List Nat), l.length ≤ n →
      (groupSpecLoop geo d maxD l).flatten.Perm l := by
    intro n
    induction n with
    | zero =>
        intro l hl
        have : l = [] := List.eq_nil_of_length_eq_zero (Nat.le_zero.mp hl)
        subst this
        simp [groupSpecLoop]
    | succ n ih =>
        intro l hl
        match l with
        | [] => simp [groupSpecLoop]
        | i :: rest =>
            have hlen : rest.length ≤ n := by
              simp only [List.length_cons] at hl
              omega
            cases hgi : geo i with
            | none =>
                simp only [groupSpecLoop, hgi, List.flatten_cons,
                  List.singleton_append]
                exact (ih rest hlen).cons i
            | some ci =>
                simp only [groupSpecLoop, hgi, List.flatten_cons,
                  List.cons_append]
                refine List.Perm.cons i ?_
                exact (List.Perm.append_left _
                    (ih _ (le_trans (List.length_filter_le _ rest) hlen))).trans
                  (List.filter_append_perm _ rest)
  exact fun l => main l.length l le_rfl

/-- A pool member whose geocoding fails always ends up as its own singleton
cluster: it can never join another seed's cluster, and on its own turn as
seed it is emitted alone. -/
theorem groupSpecLoop_singleton (geo : Nat → Option Coord)
    (d : Coord → Coord → ℚ) (maxD : ℚ) :
    ∀ (l : List Nat) (i : Nat), i ∈ l → geo i = none →
      [i] ∈ groupSpecLoop geo d maxD l := by
  have main : ∀ (n : Nat) (l : List Nat), l.length ≤ n →
      ∀ i ∈ l, geo i = none → [i] ∈ groupSpecLoop geo d maxD l := by
    intro n
    induction n with
    | zero =>
        intro l hl
        have : l = [] := List.eq_nil_of_length_eq_zero (Nat.le_zero.mp hl)
        subst this
        simp
    | succ n ih =>
        intro l hl i hi hgeo
        match l, hi with
        | j :: rest, hi =>
            have hlen : rest.length ≤ n := by
              simp only [List.length_cons] at hl
              omega
            rcases List.mem_cons.mp hi with rfl | hi'
            · simp only [groupSpecLoop, hgeo]
              exact List.mem_cons_self _ _
            · cases hgj : geo j with
              | none =>
                  simp only [groupSpecLoop, hgj]
                  exact List.mem_cons_of_mem _ (ih rest hlen i hi' hgeo)
              | some cj =>
                  simp only [groupSpecLoop, hgj]
                  refine List.mem_cons_of_mem _
                    (ih (rest.filter fun k => !near geo d maxD cj k)
                      (le_trans (List.length_filter_le _ rest) hlen) i ?_ hgeo)
                  exact List.mem_filter.mpr ⟨hi', by simp [near, hgeo]⟩
  exact fun l i => main l.length l le_rfl i

/-- No emitted cluster is empty: each carries at least its seed. -/
theorem groupSpecLoop_ne_nil (geo : Nat → Option Coord)
    (d : Coord → Coord → ℚ) (maxD : ℚ) :
    ∀ (l : List Nat), ∀ g ∈ groupSpecLoop geo d maxD l, g ≠ [] := by
  have main : ∀ (n : Nat) (l : List Nat), l.length ≤ n →
      ∀ g ∈ groupSpecLoop geo d maxD l, g ≠ [] := by
    intro n
    induction n with
    | zero =>
        intro l hl
        have : l = [] := List.eq_nil_of_length_eq_zero (Nat.le_zero.mp hl)
        subst this
        simp [groupSpecLoop]
    | succ n ih =>
        intro l hl g hg
        match l with
        | [] => simp [groupSpecLoop] at hg
        | i :: rest =>
            have hlen : rest.length ≤ n := by
              simp only [List.length_cons] at hl
              omega
            cases hgi : geo i with
            | none =>
                simp only [groupSpecLoop, hgi, List.mem_cons] at hg
                rcases hg with rfl | hg
                · simp
                · exact ih rest hlen g hg
            | some ci =>
                simp only [groupSpecLoop, hgi, List.mem_cons] at hg
                rcases hg with rfl | hg
                · simp
                · exact ih (rest.filter fun j => !near geo d maxD ci j)
                    (le_trans (List.length_filter_le _ rest) hlen) g hg
  exact fun l => main l.length l le_rfl

/-- C9: the source's grouping loop coincides with the spec's greedy
single-link-to-seed clustering (lowest-index ungrouped customer as seed, a
failed seed forming a singleton, candidates joining exactly when their
distance to the seed is within the threshold, removed in one sweep); every
cluster lists its members seed-first in ascending index order; and a
customer whose geocoding fails always appears as its own singleton
cluster. -/
theorem claim_C9_grouping (geo : Nat → Option Coord) (d : Coord → Coord → ℚ)
    (maxD : ℚ) (n : Nat) :
    group_customers_by_proximity geo d maxD n = groupSpecModel geo d maxD n ∧
    (∀ g ∈ group_customers_by_proximity geo d maxD n, g.Sorted (· < ·)) ∧
    (∀ i, i < n → geo i = none →
      [i] ∈ group_customers_by_proximity geo d maxD n) := by
  have heq : group_customers_by_proximity geo d maxD n =
      groupSpecModel geo d maxD n :=
    groupLoop_eq_spec geo d maxD (List.range n) (List.nodup_range n)
  refine ⟨heq, ?_, ?_⟩
  · rw [heq]
    exact groupSpecLoop_sorted geo d maxD (List.range n)
      (List.sorted_lt_range n)
  · intro i hi hgi
    rw [heq]
    exact groupSpecLoop_singleton geo d maxD (List.range n) i
      (List.mem_range.mpr hi) hgi

/-- C9 witness: with every geocode failing, customer 0 of a 1-customer
roster forms the singleton cluster `[0]`, which is sorted, and the source
and spec-side clusterings agree. -/
theorem claim_C9_witness :
    group_customers_by_proximity geoNone distDemo 5 1 =
      groupSpecModel geoNone distDemo 5 1 ∧
    List.Sorted (· < ·) ([0] : List Nat) ∧
    [0] ∈ group_customers_by_proximity geoNone distDemo 5 1 := by
  have h := claim_C9_grouping geoNone distDemo 5 1
  have hmem : [0] ∈ group_customers_by_proximity geoNone distDemo 5 1 :=
    h.2.2 0 (by decide) rfl
  exact ⟨h.1, h.2.1 [0] hmem, hmem⟩

/-- C10: for every roster size, distance oracle and threshold — whatever
geocoding succeeds or fails — the returned clusters partition the index
set: their concatenation is a permutation of `range n` (so every index
appears in exactly one cluster, exactly once) and no cluster is empty. -/
theorem claim_C10_partition (geo : Nat → Option Coord)
    (d : Coord → Coord → ℚ) (maxD : ℚ) (n : Nat) :
    (group_customers_by_proximity geo d maxD n).flatten.Perm (List.range n) ∧
    ∀ g ∈ group_customers_by_proximity geo d maxD n, g ≠ [] := by
  have heq : group_customers_by_proximity geo d maxD n =
      groupSpecModel geo d maxD n :=
    groupLoop_eq_spec geo d maxD (List.range n) (List.nodup_range n)
  constructor
  · rw [heq]
    exact groupSpecLoop_join_perm geo d maxD (List.range n)
  · rw [heq]
    exact groupSpecLoop_ne_nil geo d maxD (List.range n)

/-- C10 witness: on a concrete 1-customer roster the clusters' flattening
is a permutation of `range 1` and the cluster containing index 0 is
non-empty. -/
theorem claim_C10_witness :
    (group_customers_by_proximity geoNone distDemo 5 1).flatten.Perm
      (List.range 1) ∧
    ∃ g ∈ group_customers_by_proximity geoNone distDemo 5 1, g ≠ [] := by
  have h := claim_C10_partition geoNone distDemo 5 1
  have h0 : 0 ∈ (group_customers_by_proximity geoNone distDemo 5 1).flatten :=
    h.1.mem_iff.mpr (by decide)
  rcases List.mem_flatten.mp h0 with ⟨g, hg, _⟩
  exact ⟨h.1, g, hg, h.2 g hg⟩

end RouteLogger
